import Mathlib

/-!
Verification of the bounding-box coordinate transformation and windowed-export
pipeline of the `rocc-pipelines` repository.

The Python sources are shallowly embedded:
* Python `int` values become `Int` (or `Nat` for loop counters that start at 0
  and only increase), Python numbers flowing through `/` become `ℚ`;
* Python's `round` (round half to even) becomes `pyround`;
* code that can raise an exception is embedded as `Option`/`Except`, with
  `none`/`error` marking the raise (tuple-unpacking errors, `ZeroDivisionError`,
  `cv2` errors on unreadable images);
* the `while` loop of `calculate_sliding_windows` is embedded with explicit
  fuel (`cswAux`), since for `stride <= 0` the Python loop does not terminate;
* Python's `sorted` (a stable ascending sort) is embedded as insertion sort,
  which is also stable.
-/

/-- Python 3 `round`: round to the nearest integer, ties to even
(`round(2.5) == 2`, `round(-2.5) == -2`, `round(1.5) == 2`). -/
def pyround (q : ℚ) : ℤ :=
  if q - ⌊q⌋ < 1 / 2 then ⌊q⌋
  else if 1 / 2 < q - ⌊q⌋ then ⌊q⌋ + 1
  else if ⌊q⌋ % 2 = 0 then ⌊q⌋ else ⌊q⌋ + 1

/-- `SlidingWindow` of `export-image-cutouts.py`: a namedtuple with fields
`start` and `end`. -/
structure SlidingWindow where
  start : Int
  «end» : Int
deriving DecidableEq, Repr

/-- The body of the `while` loop of `calculate_sliding_windows`
(`export-image-cutouts.py`, lines 41-51), with explicit fuel.  The Python loop
keeps the running `index` and the current `left_window`; the loop test
`left_window.end <= limit / 2` (true division) is rendered over the integers as
`2 * left_end ≤ limit`, which is equivalent.  `none` means the fuel ran out
before the stopping test was reached. -/
def cswAux (window_size stride limit : Int) : Nat → Nat → Int → Option (List SlidingWindow)
  | 0, _, _ => none
  | fuel + 1, index, left_end =>
    if 2 * left_end ≤ limit then
      let left : SlidingWindow := ⟨(index : Int) * stride, (index : Int) * stride + window_size⟩
      let right : SlidingWindow :=
        ⟨limit - (index : Int) * stride - window_size, limit - (index : Int) * stride⟩
      match cswAux window_size stride limit fuel (index + 1) left.«end» with
      | some rest => some (left :: right :: rest)
      | none => none
    else some []

/-- A fuel budget sufficient for the loop whenever `1 ≤ stride` (proved below). -/
def cswFuel (window_size limit : Int) : Nat := (limit - 2 * window_size).toNat + 3

/-- `calculate_sliding_windows` of `export-image-cutouts.py`: run the loop from
`index = 0` with initial `left_window = SlidingWindow(0, 0)`, then return the
windows sorted ascending by `start` (Python's `sorted` is a stable sort,
embedded as insertion sort). -/
def calculate_sliding_windows (window_size stride limit : Int) : List SlidingWindow :=
  match cswAux window_size stride limit (cswFuel window_size limit) 0 0 with
  | some windows => windows.insertionSort (fun a b => a.start ≤ b.start)
  | none => []

instance : IsTotal SlidingWindow (fun a b => a.start ≤ b.start) :=
  ⟨fun a b => Int.le_total a.start b.start⟩

instance : IsTrans SlidingWindow (fun a b => a.start ≤ b.start) :=
  ⟨fun _ _ _ hab hbc => le_trans hab hbc⟩

/-- The left window of iteration `i`: `[i*stride, i*stride + window_size)`. -/
def leftWindow (window_size stride : Int) (i : Nat) : SlidingWindow :=
  ⟨(i : Int) * stride, (i : Int) * stride + window_size⟩

/-- The right window of iteration `i`:
`[limit - i*stride - window_size, limit - i*stride)`. -/
def rightWindow (window_size stride limit : Int) (i : Nat) : SlidingWindow :=
  ⟨limit - (i : Int) * stride - window_size, limit - (i : Int) * stride⟩

/-- The window pairs appended by iterations `i = 0, …, k`, in append order. -/
def windowPairs (window_size stride limit : Int) (k : Nat) : List SlidingWindow :=
  (List.range (k + 1)).flatMap
    (fun i => [leftWindow window_size stride i, rightWindow window_size stride limit i])

/-- The value of `left_window.end` seen by the loop test at the start of
iteration `j` (`0` before the first iteration, the previous left end after). -/
def prevEnd (window_size stride : Int) : Nat → Int
  | 0 => 0
  | j + 1 => (j : Int) * stride + window_size

/-- `calculate_bounding_box` of `src/utils/exportutils.py` (lines 103-132).
`none` models the `ZeroDivisionError` raised when an image-size component is
zero; otherwise the normalized center and dimensions are returned, unrounded. -/
def calculate_bounding_box (top_left bottom_right image_size : ℚ × ℚ) :
    Option ((ℚ × ℚ) × (ℚ × ℚ)) :=
  let (x1, y1) := top_left
  let (x2, y2) := bottom_right
  let (width, height) := image_size
  if width = 0 ∨ height = 0 then none
  else
    let x_center := x1 + (x2 - x1) / 2
    let y_center := y1 + (y2 - y1) / 2
    let x_center := x_center / width
    let y_center := y_center / height
    let box_width := (x2 - x1) / width
    let box_height := (y2 - y1) / height
    some ((x_center, y_center), (box_width, box_height))

/-- The textually identical copy of `calculate_bounding_box` in
`src/exportutils.py` (lines 96-125). -/
def calculate_bounding_box_root (top_left bottom_right image_size : ℚ × ℚ) :
    Option ((ℚ × ℚ) × (ℚ × ℚ)) :=
  let (x1, y1) := top_left
  let (x2, y2) := bottom_right
  let (width, height) := image_size
  if width = 0 ∨ height = 0 then none
  else
    let x_center := x1 + (x2 - x1) / 2
    let y_center := y1 + (y2 - y1) / 2
    let x_center := x_center / width
    let y_center := y_center / height
    let box_width := (x2 - x1) / width
    let box_height := (y2 - y1) / height
    some ((x_center, y_center), (box_width, box_height))

/-- The copy of `calculate_bounding_box` in `src/export-yolov5-annotations.py`
(lines 217-246); unlike the other two copies it computes
`x_center = round((x2 - x1) / 2)` — rounded, and without adding `x1`. -/
def calculate_bounding_box_yolo (top_left bottom_right image_size : ℚ × ℚ) :
    Option ((ℚ × ℚ) × (ℚ × ℚ)) :=
  let (x1, y1) := top_left
  let (x2, y2) := bottom_right
  let (width, height) := image_size
  if width = 0 ∨ height = 0 then none
  else
    let x_center : ℚ := (pyround ((x2 - x1) / 2) : ℤ)
    let y_center : ℚ := (pyround ((y2 - y1) / 2) : ℤ)
    let x_center := x_center / width
    let y_center := y_center / height
    let box_width := (x2 - x1) / width
    let box_height := (y2 - y1) / height
    some ((x_center, y_center), (box_width, box_height))

/-- `translate_coordinates` of `src/utils/yolov5utils.py` (lines 27-49).  Note
that the unrounded `top_left_x`/`top_left_y` feed the bottom-right corner; the
Python code rebinds `center`, rendered here as `center_pix`. -/
def translate_coordinates (center box_size image_size : ℚ × ℚ) :
    (ℤ × ℤ) × (ℤ × ℤ) × (ℤ × ℤ) :=
  let (center_x, center_y) := center
  let (box_width, box_height) := box_size
  let (img_width, img_height) := image_size
  let top_left_x := (center_x - box_width / 2) * img_width
  let top_left_y := (center_y - box_height / 2) * img_height
  let top_left := (pyround top_left_x, pyround top_left_y)
  let bottom_down_x := top_left_x + box_width * img_width
  let bottom_down_y := top_left_y + box_height * img_height
  let bottom_right := (pyround bottom_down_x, pyround bottom_down_y)
  let center_pix := (pyround (center_x * img_width), pyround (center_y * img_height))
  (top_left, bottom_right, center_pix)

/-- `scale_point` of `src/utils/exportutils.py` (lines 76-100).  The first
statement is `original_height, original_width, _ = original_size`, a
three-way unpack, so `original_size` is modeled as a list: any arity other
than three raises `ValueError`, modeled as `none`.  A zero original dimension
raises `ZeroDivisionError`, also `none`.  `export_size` is unpacked into
exactly two components `(export_width, export_height)`. -/
def scale_point (point : ℚ × ℚ) (original_size : List ℚ) (export_size : ℚ × ℚ) :
    Option (ℤ × ℤ) :=
  match original_size with
  | [original_height, original_width, _] =>
    if original_width = 0 ∨ original_height = 0 then none
    else
      let (export_width, export_height) := export_size
      let x_scale := export_width / original_width
      let y_scale := export_height / original_height
      let (x_old, y_old) := point
      some (pyround (x_old * x_scale), pyround (y_old * y_scale))
  | _ => none

/-- `get_cv2_image_size` of `src/utils/exportutils.py` (lines 249-263): the cv2
image is represented by its `shape` list; the unpack `height, width, _ =
image.shape` requires exactly three components and the function returns the
two-component `(width, height)`. -/
def get_cv2_image_size (shape : List ℚ) : Option (List ℚ) :=
  match shape with
  | [height, width, _] => some [width, height]
  | _ => none

/-- One line of a YOLO v5 labels file:
`"{label} {x} {y} {w} {h}\n"`. -/
structure LabelLine where
  label : ℤ
  x : ℚ
  y : ℚ
  w : ℚ
  h : ℚ
deriving DecidableEq, Repr

/-- `export_yolov5_annotation` of `src/utils/exportutils.py` (lines 135-174):
scale both corners, compute the normalized bounding box, and append one line to
the labels file.  `none` models an exception raised before the write; `some`
is the line appended (in append mode) to the labels file. -/
def export_yolov5_annotation (label_index : ℤ)
    (left_up_horiz left_up_vert right_down_horiz right_down_vert : ℚ)
    (original_image_size : List ℚ) (export_image_size : ℚ × ℚ) : Option LabelLine :=
  match scale_point (left_up_horiz, left_up_vert) original_image_size export_image_size with
  | none => none
  | some top_left =>
    match scale_point (right_down_horiz, right_down_vert) original_image_size
        export_image_size with
    | none => none
    | some bottom_right =>
      match calculate_bounding_box ((top_left.1 : ℚ), (top_left.2 : ℚ))
          ((bottom_right.1 : ℚ), (bottom_right.2 : ℚ)) export_image_size with
      | none => none
      | some (center, dimensions) =>
        some ⟨label_index, center.1, center.2, dimensions.1, dimensions.2⟩

/-- An annotation row `(file_name, letter, x1, y1, x2, y2)` as iterated by
`export_annotations` (`for file_name, letter, *coords in annotations`). -/
structure AnnotationRow where
  file_name : String
  letter : String
  x1 : ℚ
  y1 : ℚ
  x2 : ℚ
  y2 : ℚ

/-- `get_export_file_names` of `export-yolov5-annotations-on-full-images.py`
(lines 23-41); the `Path.parts`/`Path.stem` string formatting is abstracted
into two distinct derived names. -/
def get_export_file_names (image_path : String) : String × String :=
  (image_path ++ ".png", image_path ++ ".txt")

/-- The label-map update shared by `export_annotations`
(`export-yolov5-annotations-on-full-images.py`, lines 79-80) and
`export_collection` (`export-yolov5-annotations.py`, lines 319-320):
`if letter not in labels_map: labels_map[letter] = len(labels_map)`.
A Python dict preserves insertion order, modeled as an association list
extended at the end. -/
def labelsMapInsert (labels_map : List (String × Nat)) (letter : String) :
    List (String × Nat) :=
  if (labels_map.lookup letter).isSome then labels_map
  else labels_map ++ [(letter, labels_map.length)]

/-- The mutable state of an `export_annotations` run: the
`original_size_dict`, the `labels_map`, and the lines appended so far to the
per-image labels files. -/
structure ExportState where
  original_size_dict : List (String × List ℚ)
  labels_map : List (String × Nat)
  lines : List (String × LabelLine)

/-- The tail of the loop body of `export_annotations` (lines 79-87): register
the letter in the labels map, fetch the original size from the dict, and call
`export_yolov5_annotation`.  The second component is `some` error message when
that call raises, in which case no line is appended. -/
def export_row_tail (image_size : ℚ × ℚ) (row : AnnotationRow)
    (image_name labels_name : String) (st : ExportState) :
    ExportState × Option String :=
  let lm := labelsMapInsert st.labels_map row.letter
  let st2 : ExportState := ⟨st.original_size_dict, lm, st.lines⟩
  match st2.original_size_dict.lookup image_name with
  | none => (st2, some "KeyError")
  | some original_image_size =>
    match export_yolov5_annotation (((lm.lookup row.letter).getD 0 : Nat) : ℤ)
        row.x1 row.y1 row.x2 row.y2 original_image_size image_size with
    | none => (st2, some "ValueError: not enough values to unpack (expected 3, got 2)")
    | some line =>
      (⟨st2.original_size_dict, st2.labels_map, st2.lines ++ [(labels_name, line)]⟩, none)

/-- `export_annotations` of `export-yolov5-annotations-on-full-images.py`
(lines 44-88).  The oracle `env` stands for the `export_image`/`cv.imread`
collaboration: `env file_name = some shape` means the export branch succeeded
and `cv.imread` returned an image of that shape; `none` means it failed, the
error is logged and the row skipped (`continue`).  The result pairs the final
state with `some` error message when an uncaught exception aborts the loop;
lines appended before an abort persist (the labels files are opened in append
mode). -/
def export_annotations (env : String → Option (List ℚ)) (image_size : ℚ × ℚ) :
    List AnnotationRow → ExportState → ExportState × Option String
  | [], st => (st, none)
  | row :: rest, st =>
    let image_name := (get_export_file_names row.file_name).1
    let labels_name := (get_export_file_names row.file_name).2
    if (st.original_size_dict.lookup image_name).isSome then
      match export_row_tail image_size row image_name labels_name st with
      | (st2, some err) => (st2, some err)
      | (st2, none) => export_annotations env image_size rest st2
    else
      match env row.file_name with
      | none => export_annotations env image_size rest st
      | some shape =>
        match get_cv2_image_size shape with
        | none => (st, some "ValueError: not enough values to unpack")
        | some sz =>
          match export_row_tail image_size row image_name labels_name
              ⟨st.original_size_dict ++ [(image_name, sz)], st.labels_map, st.lines⟩ with
          | (st2, some err) => (st2, some err)
          | (st2, none) => export_annotations env image_size rest st2

/-- Modelled from the spec (§3, `LabelIndexMap`): the distinct labels of a
sequence in first-seen encounter order.  This is the reference description the
source's label-map fold is compared against. -/
def firstSeen (letters : List String) : List String :=
  letters.foldl (fun seen l => if l ∈ seen then seen else seen ++ [l]) []

/-- The label-to-index map built by folding the loops' two-line update over the
letters of the processed annotation rows, starting from the empty dict. -/
def buildLabelsMap (letters : List String) : List (String × Nat) :=
  letters.foldl labelsMapInsert []

/-- An abstract cv2 image, represented by its pixel dimensions (the only
attribute the cutout pipeline reads besides the slicing side effects). -/
structure CvImage where
  height : Int
  width : Int
deriving DecidableEq, Repr

/-- The error `cv.cvtColor` raises when `cv.imread` returned `None`. -/
def cv2_error_message : String :=
  "cv2.error: OpenCV cvtColor: the source image is empty"

/-- `read_image_grayscale` of `src/utils/imageutils.py` (lines 22-49).
`cv.imread` returns `None` for an unreadable path — modeled by the filesystem
oracle `fs` returning `none` — and `cv.cvtColor` then raises `cv2.error`; the
function has no try/except.  The grayscale, blur, divide, threshold and
morphology steps preserve the image dimensions and are modeled as the identity
on the abstract image. -/
def read_image_grayscale (fs : String → Option CvImage) (image_path : String) :
    Except String CvImage :=
  match fs image_path with
  | none => Except.error cv2_error_message
  | some img => Except.ok img

/-- `get_cv2_image_size` of `src/utils/imageutils.py` (lines 5-19):
`height, width, *_ = image.shape; return (width, height)`. -/
def get_cv2_image_size_img (image : CvImage) : Int × Int :=
  (image.width, image.height)

/-- `WindowCoordinates` of `export-image-cutouts.py`. -/
structure WindowCoordinates where
  top_left_x : Int
  top_left_y : Int
  bottom_right_x : Int
  bottom_right_y : Int
deriving DecidableEq, Repr

/-- `WindowMetadata` of `export-image-cutouts.py`. -/
structure WindowMetadata where
  image_width : Int
  image_height : Int
  window_name : String
  window_size : Int
  top_left_x : Int
  top_left_y : Int
  bottom_right_x : Int
  bottom_right_y : Int
deriving DecidableEq, Repr

/-- `calculate_window_coordinates` of `export-image-cutouts.py` (lines 55-88):
outer loop over the vertical windows, inner loop over the horizontal ones. -/
def calculate_window_coordinates (image_width image_height window_size
    horizontal_stride vertical_stride : Int) : List WindowCoordinates :=
  (calculate_sliding_windows window_size vertical_stride image_height).flatMap
    (fun v_window =>
      (calculate_sliding_windows window_size horizontal_stride image_width).map
        (fun h_window =>
          ⟨h_window.start, v_window.start, h_window.«end», v_window.«end»⟩))

/-- `export_image_cutouts` of `export-image-cutouts.py` (lines 91-128): read
the page in grayscale (a raised `cv2.error` propagates — there is no handler),
then emit one metadata row per window.  The `cv.imwrite` side effect and the
`parts`/`stem` formatting of the export name are abstracted into the
`window_name` string. -/
def export_image_cutouts (window_size horizontal_stride vertical_stride : Int)
    (fs : String → Option CvImage) (image_path : String) :
    Except String (List WindowMetadata) :=
  match read_image_grayscale fs image_path with
  | Except.error e => Except.error e
  | Except.ok source_img =>
    let sz := get_cv2_image_size_img source_img
    let coordinates := calculate_window_coordinates sz.1 sz.2 window_size
        horizontal_stride vertical_stride
    Except.ok (coordinates.enum.map (fun p =>
      ⟨sz.1, sz.2, image_path ++ "-w" ++ toString p.1, window_size,
        p.2.top_left_x, p.2.top_left_y, p.2.bottom_right_x, p.2.bottom_right_y⟩))

/-- The page loop of `main` in `export-image-cutouts.py` (lines 155-180): each
page's metadata rows are accumulated; an exception raised while processing any
page propagates out of `main` (there is no try/except), so the whole batch
aborts and `save_metadata` is never reached. -/
def main_cutouts (window_size horizontal_stride vertical_stride : Int)
    (fs : String → Option CvImage) : List String → Except String (List WindowMetadata)
  | [] => Except.ok []
  | page :: rest =>
    match export_image_cutouts window_size horizontal_stride vertical_stride fs page with
    | Except.error e => Except.error e
    | Except.ok metadata =>
      match main_cutouts window_size horizontal_stride vertical_stride fs rest with
      | Except.error e => Except.error e
      | Except.ok more => Except.ok (metadata ++ more)

/-- A filesystem on which `good.png` is a readable `1024 × 768` page and every
other path is unreadable. -/
def fsC6 : String → Option CvImage := fun p =>
  if p = "good.png" then some ⟨768, 1024⟩ else none

@[simp] theorem pyround_intCast (n : ℤ) : pyround ((n : ℚ)) = n := by
  have h : ((n : ℚ)) - ⌊((n : ℚ))⌋ = 0 := by simp
  unfold pyround
  rw [h]
  norm_num

theorem pyround_eq_of_eq_intCast (q : ℚ) (n : ℤ) (h : q = (n : ℚ)) : pyround q = n := by
  rw [h, pyround_intCast]

/-- Characterization of the loop: starting at iteration `j` with the loop-test
value `prevEnd j`, the remaining iterations are exactly `j, …, k`, where `k` is
the first index whose left window passes the stopping test. -/
theorem cswAux_spec (window_size stride limit : Int) (hl : 0 ≤ limit) (k : Nat)
    (hk : limit < 2 * ((k : Int) * stride + window_size))
    (hmin : ∀ i : Nat, i < k → 2 * ((i : Int) * stride + window_size) ≤ limit) :
    ∀ d j fuel, j + d = k + 1 → d < fuel →
      cswAux window_size stride limit fuel j (prevEnd window_size stride j) =
        some ((List.range' j d).flatMap
          (fun i => [leftWindow window_size stride i, rightWindow window_size stride limit i])) := by
  intro d
  induction d with
  | zero =>
    intro j fuel hj hf
    obtain ⟨f, rfl⟩ : ∃ f, fuel = f + 1 := ⟨fuel - 1, by omega⟩
    have hj' : j = k + 1 := by omega
    subst hj'
    have hcond : ¬ (2 * prevEnd window_size stride (k + 1) ≤ limit) := by
      simp only [prevEnd]
      omega
    simp [cswAux, hcond]
  | succ d ih =>
    intro j fuel hj hf
    obtain ⟨f, rfl⟩ : ∃ f, fuel = f + 1 := ⟨fuel - 1, by omega⟩
    have hcond : 2 * prevEnd window_size stride j ≤ limit := by
      cases j with
      | zero => simpa [prevEnd] using hl
      | succ j' =>
        have hj'' : j' < k := by omega
        simpa [prevEnd] using hmin j' hj''
    have hrec := ih (j + 1) f (by omega) (by omega)
    simp only [prevEnd] at hrec
    simp only [cswAux, if_pos hcond, hrec, List.range'_succ, List.flatMap_cons]
    rfl

/-- With a positive stride the stopping test is eventually reached. -/
theorem exists_stopIndex (window_size stride limit : Int) (hs : 1 ≤ stride) :
    ∃ k : Nat, limit < 2 * ((k : Int) * stride + window_size) := by
  refine ⟨(limit - 2 * window_size).toNat + 1, ?_⟩
  have h1 : limit - 2 * window_size ≤ (((limit - 2 * window_size).toNat : Int)) :=
    Int.self_le_toNat _
  have h2 : ((((limit - 2 * window_size).toNat + 1 : Nat)) : Int)
      ≤ (((limit - 2 * window_size).toNat + 1 : Nat) : Int) * stride :=
    le_mul_of_one_le_right (Int.natCast_nonneg _) hs
  set a := (((limit - 2 * window_size).toNat + 1 : Nat) : Int) * stride with ha
  push_cast at h1 h2 ⊢
  omega

/-- The fuel budget covers all iterations up to the first stopping index. -/
theorem stopIndex_lt_fuel (window_size stride limit : Int) (hs : 1 ≤ stride) (k : Nat)
    (hmin : ∀ i : Nat, i < k → 2 * ((i : Int) * stride + window_size) ≤ limit) :
    k + 1 < cswFuel window_size limit := by
  unfold cswFuel
  cases k with
  | zero => omega
  | succ j =>
    have h1 := hmin j (by omega)
    have h2 : ((j : Int)) ≤ (j : Int) * stride :=
      le_mul_of_one_le_right (Int.natCast_nonneg _) hs
    set a := (j : Int) * stride with ha
    omega

/-- `calculate_sliding_windows` is the stable ascending-by-`start` sort of the
pairs appended for iterations `0, …, k`, where `k` is the first index whose
left window fails the loop test. -/
theorem calculate_sliding_windows_eq (window_size stride limit : Int) (hs : 1 ≤ stride)
    (hl : 0 ≤ limit) (k : Nat)
    (hk : limit < 2 * ((k : Int) * stride + window_size))
    (hmin : ∀ i : Nat, i < k → 2 * ((i : Int) * stride + window_size) ≤ limit) :
    calculate_sliding_windows window_size stride limit =
      (windowPairs window_size stride limit k).insertionSort (fun a b => a.start ≤ b.start) := by
  have hfuel : k + 1 < cswFuel window_size limit :=
    stopIndex_lt_fuel window_size stride limit hs k hmin
  have h := cswAux_spec window_size stride limit hl k hk hmin (k + 1) 0
    (cswFuel window_size limit) (by omega) hfuel
  simp only [prevEnd] at h
  unfold calculate_sliding_windows
  rw [h]
  unfold windowPairs
  rw [List.range_eq_range']

/-- The returned list is always sorted ascending by window start. -/
theorem calculate_sliding_windows_sorted (window_size stride limit : Int) :
    (calculate_sliding_windows window_size stride limit).Sorted
      (fun a b => a.start ≤ b.start) := by
  unfold calculate_sliding_windows
  cases h : cswAux window_size stride limit (cswFuel window_size limit) 0 0 with
  | none => simp
  | some windows =>
    simpa using
      List.sorted_insertionSort (fun a b : SlidingWindow => a.start ≤ b.start) windows

/-- Claim C1: for every `window_size`, `stride ≥ 1` and `limit ≥ 0`,
`calculate_sliding_windows` returns exactly the left windows
`(i*stride, i*stride + window_size)` and the mirrored right windows
`(limit - i*stride - window_size, limit - i*stride)` for `i = 0, …, k`, where
`k` is the least index with `k*stride + window_size > limit/2`, sorted
ascending by window start with duplicates retained; in particular for
`window_size=320, stride=140, limit=1024` it returns the six windows
`(0,320), (140,460), (280,600), (424,744), (564,884), (704,1024)`. -/
theorem C1_sliding_windows_exact (window_size stride limit : Int) (k : Nat)
    (hs : 1 ≤ stride) (hl : 0 ≤ limit)
    (hk : limit < 2 * ((k : Int) * stride + window_size))
    (hmin : ∀ i : Nat, i < k → 2 * ((i : Int) * stride + window_size) ≤ limit) :
    (calculate_sliding_windows window_size stride limit).Perm
        (windowPairs window_size stride limit k)
    ∧ (calculate_sliding_windows window_size stride limit).Sorted
        (fun a b => a.start ≤ b.start)
    ∧ calculate_sliding_windows 320 140 1024 =
        [⟨0, 320⟩, ⟨140, 460⟩, ⟨280, 600⟩, ⟨424, 744⟩, ⟨564, 884⟩, ⟨704, 1024⟩] := by
  refine ⟨?_, calculate_sliding_windows_sorted window_size stride limit, by decide⟩
  rw [calculate_sliding_windows_eq window_size stride limit hs hl k hk hmin]
  exact List.perm_insertionSort _ _

/-- Witness for C1 at `window_size=320, stride=140, limit=1024`, whose least
stopping index is `k = 2`. -/
theorem C1_sliding_windows_exact_witness :
    (calculate_sliding_windows 320 140 1024).Perm (windowPairs 320 140 1024 2)
    ∧ (calculate_sliding_windows 320 140 1024).Sorted (fun a b => a.start ≤ b.start)
    ∧ calculate_sliding_windows 320 140 1024 =
        [⟨0, 320⟩, ⟨140, 460⟩, ⟨280, 600⟩, ⟨424, 744⟩, ⟨564, 884⟩, ⟨704, 1024⟩] :=
  C1_sliding_windows_exact 320 140 1024 2 (by decide) (by decide) (by decide)
    (fun i hi => by interval_cases i <;> decide)

/-- Membership in the returned window list, described by iteration index. -/
theorem mem_calculate_sliding_windows (window_size stride limit : Int) (hs : 1 ≤ stride)
    (hl : 0 ≤ limit) (k : Nat)
    (hk : limit < 2 * ((k : Int) * stride + window_size))
    (hmin : ∀ i : Nat, i < k → 2 * ((i : Int) * stride + window_size) ≤ limit)
    (w : SlidingWindow) :
    w ∈ calculate_sliding_windows window_size stride limit ↔
      ∃ i : Nat, i ≤ k ∧
        (w = leftWindow window_size stride i ∨ w = rightWindow window_size stride limit i) := by
  rw [calculate_sliding_windows_eq window_size stride limit hs hl k hk hmin]
  rw [(List.perm_insertionSort (fun a b : SlidingWindow => a.start ≤ b.start) _).mem_iff]
  unfold windowPairs
  simp [List.mem_flatMap, List.mem_range, Nat.lt_succ_iff]

/-- Counterexample to claim C2 as stated: for `window_size = 1 ≤ limit = 2` and
`stride = 2 ≥ 1`, the returned windows contain `(-1, 0)`, whose start is
negative. -/
theorem C2_start_nonneg_cex :
    (1 : Int) ≤ 2 ∧ (1 : Int) ≤ 2 ∧
      ¬ (∀ w ∈ calculate_sliding_windows 1 2 2, 0 ≤ w.start) := by
  refine ⟨by decide, by decide, ?_⟩
  intro h
  have := h ⟨-1, 0⟩ (by decide)
  exact absurd this (by decide)

/-- Claim C2, amended: under the additional hypothesis `2*stride ≤ limit`
(violated by the counterexample), every window returned by
`calculate_sliding_windows` satisfies `0 ≤ start`. -/
theorem C2_start_nonneg_amended (window_size stride limit : Int)
    (hw : window_size ≤ limit) (hs : 1 ≤ stride) (hsl : 2 * stride ≤ limit) :
    ∀ w ∈ calculate_sliding_windows window_size stride limit, 0 ≤ w.start := by
  have hl : 0 ≤ limit := by omega
  have hex : ∃ k : Nat, limit < 2 * ((k : Int) * stride + window_size) :=
    exists_stopIndex window_size stride limit hs
  have hk := Nat.find_spec hex
  have hmin : ∀ i : Nat, i < Nat.find hex →
      2 * ((i : Int) * stride + window_size) ≤ limit :=
    fun i hi => not_lt.mp (Nat.find_min hex hi)
  intro w hwmem
  rw [mem_calculate_sliding_windows window_size stride limit hs hl (Nat.find hex) hk hmin w]
    at hwmem
  obtain ⟨i, _, hcase | hcase⟩ := hwmem
  · subst hcase
    exact mul_nonneg (Int.natCast_nonneg i) (by omega)
  · subst hcase
    cases i with
    | zero =>
      simp only [rightWindow, Nat.cast_zero, zero_mul, sub_zero]
      omega
    | succ j =>
      have h1 := hmin j (by omega)
      have h2 : ((j : Int)) ≤ (j : Int) * stride :=
        le_mul_of_one_le_right (Int.natCast_nonneg _) hs
      simp only [rightWindow]
      push_cast
      set a := (j : Int) * stride with ha
      have hdist : ((j : Int) + 1) * stride = a + stride := by rw [ha]; ring
      rw [hdist]
      omega

/-- Witness for the amended C2 at `window_size=320, stride=140, limit=1024`,
applied to the member window `(0, 320)`. -/
theorem C2_start_nonneg_amended_witness : 0 ≤ (SlidingWindow.mk 0 320).start :=
  C2_start_nonneg_amended 320 140 1024 (by decide) (by decide) (by decide)
    ⟨0, 320⟩ (by decide)

/-- Claim C7: for every window `(s, e)` in the output, the mirrored window
`(limit - e, limit - s)` is also in the output. -/
theorem C7_mirror_symmetry (window_size stride limit : Int) (hs : 1 ≤ stride)
    (hl : 0 ≤ limit) (w : SlidingWindow)
    (hw : w ∈ calculate_sliding_windows window_size stride limit) :
    SlidingWindow.mk (limit - w.«end») (limit - w.start) ∈
      calculate_sliding_windows window_size stride limit := by
  have hex : ∃ k : Nat, limit < 2 * ((k : Int) * stride + window_size) :=
    exists_stopIndex window_size stride limit hs
  have hk := Nat.find_spec hex
  have hmin : ∀ i : Nat, i < Nat.find hex →
      2 * ((i : Int) * stride + window_size) ≤ limit :=
    fun i hi => not_lt.mp (Nat.find_min hex hi)
  rw [mem_calculate_sliding_windows window_size stride limit hs hl (Nat.find hex) hk hmin]
    at hw ⊢
  obtain ⟨i, hik, hcase | hcase⟩ := hw
  · refine ⟨i, hik, Or.inr ?_⟩
    subst hcase
    dsimp only [leftWindow, rightWindow]
    rw [SlidingWindow.mk.injEq]
    constructor <;> ring
  · refine ⟨i, hik, Or.inl ?_⟩
    subst hcase
    dsimp only [leftWindow, rightWindow]
    rw [SlidingWindow.mk.injEq]
    constructor <;> ring

/-- Witness for C7: the mirror of the member window `(0, 320)` of
`calculate_sliding_windows 320 140 1024` is `(704, 1024)`, also a member. -/
theorem C7_mirror_symmetry_witness :
    SlidingWindow.mk 704 1024 ∈ calculate_sliding_windows 320 140 1024 :=
  C7_mirror_symmetry 320 140 1024 (by decide) (by decide) ⟨0, 320⟩ (by decide)

/-- Claim C9: for every `window_size`, every `limit`, and every `stride ≥ 1`,
the loop terminates — the fuel-indexed runs stabilize on a single finite list
from `cswFuel` onwards, and `calculate_sliding_windows` returns its sort. -/
theorem C9_terminates (window_size stride limit : Int) (hs : 1 ≤ stride) :
    ∃ windows : List SlidingWindow,
      (∀ fuel : Nat, cswFuel window_size limit ≤ fuel →
        cswAux window_size stride limit fuel 0 0 = some windows)
      ∧ calculate_sliding_windows window_size stride limit =
          windows.insertionSort (fun a b => a.start ≤ b.start) := by
  by_cases hl : 0 ≤ limit
  · have hex : ∃ k : Nat, limit < 2 * ((k : Int) * stride + window_size) :=
      exists_stopIndex window_size stride limit hs
    have hk := Nat.find_spec hex
    have hmin : ∀ i : Nat, i < Nat.find hex →
        2 * ((i : Int) * stride + window_size) ≤ limit :=
      fun i hi => not_lt.mp (Nat.find_min hex hi)
    have hfuel : Nat.find hex + 1 < cswFuel window_size limit :=
      stopIndex_lt_fuel window_size stride limit hs (Nat.find hex) hmin
    refine ⟨(List.range' 0 (Nat.find hex + 1)).flatMap
      (fun i => [leftWindow window_size stride i, rightWindow window_size stride limit i]),
      fun fuel hf => ?_, ?_⟩
    · have h := cswAux_spec window_size stride limit hl (Nat.find hex) hk hmin
        (Nat.find hex + 1) 0 fuel (by omega) (by omega)
      simpa [prevEnd] using h
    · rw [calculate_sliding_windows_eq window_size stride limit hs hl (Nat.find hex) hk hmin]
      unfold windowPairs
      rw [List.range_eq_range']
  · refine ⟨[], fun fuel hf => ?_, ?_⟩
    · obtain ⟨f, rfl⟩ : ∃ f, fuel = f + 1 := ⟨fuel - 1, by unfold cswFuel at hf; omega⟩
      simp [cswAux, hl]
    · unfold calculate_sliding_windows
      have h3 : ∃ f, cswFuel window_size limit = f + 1 :=
        ⟨cswFuel window_size limit - 1, by unfold cswFuel; omega⟩
      obtain ⟨f, hf⟩ := h3
      rw [hf]
      simp [cswAux, hl, List.insertionSort]

/-- Witness for C9 at `window_size=320, stride=140, limit=1024`. -/
theorem C9_terminates_witness :
    ∃ windows : List SlidingWindow,
      (∀ fuel : Nat, cswFuel 320 1024 ≤ fuel →
        cswAux 320 140 1024 fuel 0 0 = some windows)
      ∧ calculate_sliding_windows 320 140 1024 =
          windows.insertionSort (fun a b => a.start ≤ b.start) :=
  C9_terminates 320 140 1024 (by decide)

theorem calculate_bounding_box_eval (x1 y1 x2 y2 width height : ℚ)
    (hw : width ≠ 0) (hh : height ≠ 0) :
    calculate_bounding_box (x1, y1) (x2, y2) (width, height) =
      some (((x1 + (x2 - x1) / 2) / width, (y1 + (y2 - y1) / 2) / height),
        ((x2 - x1) / width, (y2 - y1) / height)) := by
  unfold calculate_bounding_box
  dsimp only
  rw [if_neg (by simp [hw, hh])]

theorem calculate_bounding_box_root_eval (x1 y1 x2 y2 width height : ℚ)
    (hw : width ≠ 0) (hh : height ≠ 0) :
    calculate_bounding_box_root (x1, y1) (x2, y2) (width, height) =
      some (((x1 + (x2 - x1) / 2) / width, (y1 + (y2 - y1) / 2) / height),
        ((x2 - x1) / width, (y2 - y1) / height)) := by
  unfold calculate_bounding_box_root
  dsimp only
  rw [if_neg (by simp [hw, hh])]

theorem calculate_bounding_box_yolo_eval (x1 y1 x2 y2 width height : ℚ)
    (hw : width ≠ 0) (hh : height ≠ 0) :
    calculate_bounding_box_yolo (x1, y1) (x2, y2) (width, height) =
      some ((((pyround ((x2 - x1) / 2) : ℤ) : ℚ) / width,
          ((pyround ((y2 - y1) / 2) : ℤ) : ℚ) / height),
        ((x2 - x1) / width, (y2 - y1) / height)) := by
  unfold calculate_bounding_box_yolo
  dsimp only
  rw [if_neg (by simp [hw, hh])]

theorem translate_coordinates_eval (cx cy bw bh w h : ℚ) :
    translate_coordinates (cx, cy) (bw, bh) (w, h) =
      ((pyround ((cx - bw / 2) * w), pyround ((cy - bh / 2) * h)),
       (pyround ((cx - bw / 2) * w + bw * w), pyround ((cy - bh / 2) * h + bh * h)),
       (pyround (cx * w), pyround (cy * h))) := rfl

/-- Counterexample to claim C4 as stated: the copy of `calculate_bounding_box`
in `export-yolov5-annotations.py` does not compute
`center = (((x1+x2)/2)/width, ((y1+y2)/2)/height)`; at corners `(10,0)`,
`(20,0)` and size `(100,100)` it yields center x `5/100`, not `15/100`. -/
theorem C4_copies_differ_cex :
    calculate_bounding_box_yolo (10, 0) (20, 0) (100, 100) ≠
      some ((((10 + 20) / 2) / 100, ((0 + 0) / 2) / 100),
        ((20 - 10) / 100, (0 - 0) / 100)) := by
  rw [calculate_bounding_box_yolo_eval 10 0 20 0 100 100 (by norm_num) (by norm_num)]
  have h5 : pyround (((20 : ℚ) - 10) / 2) = 5 :=
    pyround_eq_of_eq_intCast _ 5 (by norm_num)
  have h0 : pyround (((0 : ℚ) - 0) / 2) = 0 :=
    pyround_eq_of_eq_intCast _ 0 (by norm_num)
  rw [h5, h0]
  intro hcontra
  rw [Option.some.injEq, Prod.mk.injEq, Prod.mk.injEq] at hcontra
  have := hcontra.1.1
  norm_num at this

/-- Claim C4, amended: the copies in `utils/exportutils.py` and
`exportutils.py` both compute the claimed normalized center and size with no
rounding and agree; the third copy, in `export-yolov5-annotations.py`, instead
computes `center = (round((x2-x1)/2)/width, round((y2-y1)/2)/height)` (the
dimensions agree with the claim). -/
theorem C4_bounding_box_amended (x1 y1 x2 y2 width height : ℚ)
    (hw : 0 < width) (hh : 0 < height) :
    calculate_bounding_box (x1, y1) (x2, y2) (width, height) =
        some ((((x1 + x2) / 2) / width, ((y1 + y2) / 2) / height),
          ((x2 - x1) / width, (y2 - y1) / height))
    ∧ calculate_bounding_box_root (x1, y1) (x2, y2) (width, height) =
        calculate_bounding_box (x1, y1) (x2, y2) (width, height)
    ∧ calculate_bounding_box_yolo (x1, y1) (x2, y2) (width, height) =
        some ((((pyround ((x2 - x1) / 2) : ℤ) : ℚ) / width,
            ((pyround ((y2 - y1) / 2) : ℤ) : ℚ) / height),
          ((x2 - x1) / width, (y2 - y1) / height)) := by
  have hw' : width ≠ 0 := ne_of_gt hw
  have hh' : height ≠ 0 := ne_of_gt hh
  have hx : x1 + (x2 - x1) / 2 = (x1 + x2) / 2 := by ring
  have hy : y1 + (y2 - y1) / 2 = (y1 + y2) / 2 := by ring
  refine ⟨?_, ?_, calculate_bounding_box_yolo_eval x1 y1 x2 y2 width height hw' hh'⟩
  · rw [calculate_bounding_box_eval x1 y1 x2 y2 width height hw' hh', hx, hy]
  · rw [calculate_bounding_box_root_eval x1 y1 x2 y2 width height hw' hh',
      calculate_bounding_box_eval x1 y1 x2 y2 width height hw' hh']

/-- Witness for the amended C4 at corners `(10,0)`, `(20,0)`, size `(100,100)`. -/
theorem C4_bounding_box_amended_witness :
    calculate_bounding_box (10, 0) (20, 0) (100, 100) =
        some (((((10 : ℚ) + 20) / 2) / 100, (((0 : ℚ) + 0) / 2) / 100),
          (((20 : ℚ) - 10) / 100, ((0 : ℚ) - 0) / 100))
    ∧ calculate_bounding_box_root (10, 0) (20, 0) (100, 100) =
        calculate_bounding_box (10, 0) (20, 0) (100, 100)
    ∧ calculate_bounding_box_yolo (10, 0) (20, 0) (100, 100) =
        some ((((pyround (((20 : ℚ) - 10) / 2) : ℤ) : ℚ) / 100,
            ((pyround (((0 : ℚ) - 0) / 2) : ℤ) : ℚ) / 100),
          (((20 : ℚ) - 10) / 100, ((0 : ℚ) - 0) / 100)) :=
  C4_bounding_box_amended 10 0 20 0 100 100 (by norm_num) (by norm_num)

/-- Feeding the output of `calculate_bounding_box` into `translate_coordinates`
returns the rounded original corners (exactly, since the arithmetic cancels). -/
theorem roundtrip_corners (x1 y1 x2 y2 w h : ℚ) (hw : w ≠ 0) (hh : h ≠ 0) :
    translate_coordinates
        ((x1 + (x2 - x1) / 2) / w, (y1 + (y2 - y1) / 2) / h)
        ((x2 - x1) / w, (y2 - y1) / h) (w, h) =
      ((pyround x1, pyround y1), (pyround x2, pyround y2),
        (pyround (x1 + (x2 - x1) / 2), pyround (y1 + (y2 - y1) / 2))) := by
  rw [translate_coordinates_eval]
  rw [show ((x1 + (x2 - x1) / 2) / w - (x2 - x1) / w / 2) * w = x1 by field_simp; ring]
  rw [show ((y1 + (y2 - y1) / 2) / h - (y2 - y1) / h / 2) * h = y1 by field_simp; ring]
  rw [show x1 + (x2 - x1) / w * w = x2 by field_simp]
  rw [show y1 + (y2 - y1) / h * h = y2 by field_simp]
  rw [show (x1 + (x2 - x1) / 2) / w * w = x1 + (x2 - x1) / 2 by field_simp; ring]
  rw [show (y1 + (y2 - y1) / 2) / h * h = y1 + (y2 - y1) / 2 by field_simp; ring]

/-- Claim C8: for integer corners `0 ≤ x1 ≤ x2 ≤ width`, `0 ≤ y1 ≤ y2 ≤ height`
with positive image size, composing `calculate_bounding_box` with
`translate_coordinates` recovers every corner coordinate to within 1. -/
theorem C8_roundtrip_within_one (x1 y1 x2 y2 w h : ℤ)
    (hx1 : 0 ≤ x1) (hx12 : x1 ≤ x2) (hx2 : x2 ≤ w)
    (hy1 : 0 ≤ y1) (hy12 : y1 ≤ y2) (hy2 : y2 ≤ h)
    (hw : 0 < w) (hh : 0 < h) (center dimensions : ℚ × ℚ)
    (hbb : calculate_bounding_box ((x1 : ℚ), (y1 : ℚ)) ((x2 : ℚ), (y2 : ℚ))
        ((w : ℚ), (h : ℚ)) = some (center, dimensions)) :
    |(translate_coordinates center dimensions ((w : ℚ), (h : ℚ))).1.1 - x1| ≤ 1
    ∧ |(translate_coordinates center dimensions ((w : ℚ), (h : ℚ))).1.2 - y1| ≤ 1
    ∧ |(translate_coordinates center dimensions ((w : ℚ), (h : ℚ))).2.1.1 - x2| ≤ 1
    ∧ |(translate_coordinates center dimensions ((w : ℚ), (h : ℚ))).2.1.2 - y2| ≤ 1 := by
  have hw' : (w : ℚ) ≠ 0 := Int.cast_ne_zero.mpr (by omega)
  have hh' : (h : ℚ) ≠ 0 := Int.cast_ne_zero.mpr (by omega)
  rw [calculate_bounding_box_eval _ _ _ _ _ _ hw' hh', Option.some.injEq,
    Prod.mk.injEq] at hbb
  obtain ⟨hc, hd⟩ := hbb
  subst hc
  subst hd
  rw [roundtrip_corners _ _ _ _ _ _ hw' hh']
  simp only [pyround_intCast]
  refine ⟨?_, ?_, ?_, ?_⟩ <;> simp

/-- Witness for C8 at corners `(1,2)`, `(3,4)` in a `10 × 10` image, where the
normalized box is `center = (1/5, 3/10)`, `dimensions = (1/5, 1/5)`. -/
theorem C8_roundtrip_within_one_witness :
    |(translate_coordinates (1 / 5, 3 / 10) (1 / 5, 1 / 5) (10, 10)).1.1 - 1| ≤ 1
    ∧ |(translate_coordinates (1 / 5, 3 / 10) (1 / 5, 1 / 5) (10, 10)).1.2 - 2| ≤ 1
    ∧ |(translate_coordinates (1 / 5, 3 / 10) (1 / 5, 1 / 5) (10, 10)).2.1.1 - 3| ≤ 1
    ∧ |(translate_coordinates (1 / 5, 3 / 10) (1 / 5, 1 / 5) (10, 10)).2.1.2 - 4| ≤ 1 :=
  C8_roundtrip_within_one 1 2 3 4 10 10 (by norm_num) (by norm_num) (by norm_num)
    (by norm_num) (by norm_num) (by norm_num) (by norm_num) (by norm_num)
    (1 / 5, 3 / 10) (1 / 5, 1 / 5)
    (by rw [calculate_bounding_box_eval _ _ _ _ _ _ (by norm_num) (by norm_num)]; norm_num)

/-- Claim C3 (evaluation at the failing input): `export_yolov5_annotation` has
no zero-area check — for the degenerate box `(10,10)-(10,10)`, an original size
whose three-way unpack succeeds, and export size `(100,100)`, it appends the
line `0 0.1 0.1 0.0 0.0`, a `NormalizedBox` with zero width and zero height,
instead of rejecting or skipping the rectangle. -/
theorem C3_zero_area_box_emitted :
    export_yolov5_annotation 0 10 10 10 10 [100, 100, 3] (100, 100) =
      some ⟨0, 1 / 10, 1 / 10, 0, 0⟩ := by
  have harg : (10 : ℚ) * (100 / 100) = ((10 : ℤ) : ℚ) := by norm_num
  have hp : pyround ((10 : ℚ) * (100 / 100)) = 10 := by rw [harg, pyround_intCast]
  have hsp : scale_point (10, 10) [100, 100, 3] (100, 100) = some (10, 10) := by
    unfold scale_point
    dsimp only
    rw [if_neg (by norm_num), hp]
  have hbb : calculate_bounding_box (((10 : ℤ) : ℚ), ((10 : ℤ) : ℚ))
      (((10 : ℤ) : ℚ), ((10 : ℤ) : ℚ)) (100, 100) = some ((1 / 10, 1 / 10), (0, 0)) := by
    rw [calculate_bounding_box_eval _ _ _ _ _ _ (by norm_num) (by norm_num)]
    norm_num
  unfold export_yolov5_annotation
  rw [hsp]
  dsimp only
  rw [hbb]

theorem scale_point_len_two (point : ℚ × ℚ) (original_size : List ℚ)
    (export_size : ℚ × ℚ) (h : original_size.length = 2) :
    scale_point point original_size export_size = none := by
  rcases original_size with _ | ⟨a, _ | ⟨b, _ | ⟨c, t⟩⟩⟩
  · simp at h
  · simp at h
  · rfl
  · simp at h

theorem export_yolov5_annotation_len_two (label : ℤ) (x1 y1 x2 y2 : ℚ)
    (original_image_size : List ℚ) (export_size : ℚ × ℚ)
    (h : original_image_size.length = 2) :
    export_yolov5_annotation label x1 y1 x2 y2 original_image_size export_size = none := by
  unfold export_yolov5_annotation
  rw [scale_point_len_two _ _ _ h]

theorem get_cv2_image_size_length (shape sz : List ℚ)
    (h : get_cv2_image_size shape = some sz) : sz.length = 2 := by
  rcases shape with _ | ⟨a, _ | ⟨b, _ | ⟨c, _ | ⟨d, t⟩⟩⟩⟩
  · exact Option.noConfusion h
  · exact Option.noConfusion h
  · exact Option.noConfusion h
  · rw [show get_cv2_image_size [a, b, c] = some [b, a] from rfl,
      Option.some.injEq] at h
    rw [← h]
    rfl
  · exact Option.noConfusion h

theorem lookup_length_two (l : List (String × List ℚ)) (k : String) (v : List ℚ)
    (hinv : ∀ e ∈ l, e.2.length = 2) (h : l.lookup k = some v) : v.length = 2 := by
  induction l with
  | nil => exact Option.noConfusion h
  | cons e rest ih =>
    obtain ⟨k', v'⟩ := e
    rw [List.lookup] at h
    cases hkk : (k == k') with
    | true =>
      rw [hkk] at h
      have hv : v' = v := by simpa using h
      have := hinv (k', v') (by simp)
      simpa [← hv] using this
    | false =>
      rw [hkk] at h
      exact ih (fun e he => hinv e (by simp [he])) h

/-- When every size stored in the dict has two components, the export call in
the loop tail raises: no line is appended, the dict is unchanged, and the run
aborts. -/
theorem export_row_tail_no_write (image_size : ℚ × ℚ) (row : AnnotationRow)
    (image_name labels_name : String) (st : ExportState)
    (hinv : ∀ e ∈ st.original_size_dict, e.2.length = 2) :
    (export_row_tail image_size row image_name labels_name st).1.lines = st.lines
    ∧ (export_row_tail image_size row image_name labels_name st).1.original_size_dict
        = st.original_size_dict
    ∧ (export_row_tail image_size row image_name labels_name st).2.isSome = true := by
  unfold export_row_tail
  dsimp only
  cases hl : st.original_size_dict.lookup image_name with
  | none => exact ⟨rfl, rfl, rfl⟩
  | some original_image_size =>
    have hos : original_image_size.length = 2 :=
      lookup_length_two _ _ _ hinv hl
    dsimp only
    rw [export_yolov5_annotation_len_two _ _ _ _ _ _ _ hos]
    exact ⟨rfl, rfl, rfl⟩

/-- Every `export_annotations` run whose initial dict holds only two-component
sizes appends no label line at all: the first row that reaches the export call
aborts the run inside `scale_point`, and all other rows are skipped. -/
theorem export_annotations_no_lines (env : String → Option (List ℚ)) (image_size : ℚ × ℚ) :
    ∀ (rows : List AnnotationRow) (st : ExportState),
      (∀ e ∈ st.original_size_dict, e.2.length = 2) →
      (export_annotations env image_size rows st).1.lines = st.lines := by
  intro rows
  induction rows with
  | nil => intro st hinv; rfl
  | cons row rest ih =>
    intro st hinv
    unfold export_annotations
    dsimp only
    by_cases hmem :
        (st.original_size_dict.lookup (get_export_file_names row.file_name).1).isSome = true
    · rw [if_pos hmem]
      obtain ⟨hlines, hdict, hsome⟩ :=
        export_row_tail_no_write image_size row (get_export_file_names row.file_name).1
          (get_export_file_names row.file_name).2 st hinv
      rcases htail : export_row_tail image_size row (get_export_file_names row.file_name).1
          (get_export_file_names row.file_name).2 st with ⟨st2, errOpt⟩
      rw [htail] at hlines hsome
      cases errOpt with
      | none => simp at hsome
      | some err => exact hlines
    · rw [if_neg hmem]
      cases henv : env row.file_name with
      | none => exact ih st hinv
      | some shape =>
        dsimp only
        cases hsz : get_cv2_image_size shape with
        | none => rfl
        | some sz =>
          dsimp only
          have hinv2 : ∀ e ∈ st.original_size_dict
              ++ [((get_export_file_names row.file_name).1, sz)], e.2.length = 2 := by
            intro e he
            rcases List.mem_append.mp he with hcase | hcase
            · exact hinv e hcase
            · have he' : e = ((get_export_file_names row.file_name).1, sz) := by
                simpa using hcase
              rw [he']
              exact get_cv2_image_size_length _ _ hsz
          obtain ⟨hlines, hdict, hsome⟩ :=
            export_row_tail_no_write image_size row (get_export_file_names row.file_name).1
              (get_export_file_names row.file_name).2
              ⟨st.original_size_dict ++ [((get_export_file_names row.file_name).1, sz)],
                st.labels_map, st.lines⟩ hinv2
          rcases htail : export_row_tail image_size row
              (get_export_file_names row.file_name).1
              (get_export_file_names row.file_name).2
              ⟨st.original_size_dict ++ [((get_export_file_names row.file_name).1, sz)],
                st.labels_map, st.lines⟩ with ⟨st2, errOpt⟩
          rw [htail] at hlines hsome
          cases errOpt with
          | none => simp at hsome
          | some err => exact hlines

/-- Claim C5: `scale_point` fails on every two-component `original_size` and
returns a value only on three-component ones; `get_cv2_image_size` produces a
two-component `(width, height)`; hence `export_yolov5_annotation` called with a
`get_cv2_image_size` result fails before writing, and an `export_annotations`
run starting from the empty state writes no label line at all. -/
theorem C5_scale_point_unpack :
    (∀ (point : ℚ × ℚ) (original_size : List ℚ) (export_size : ℚ × ℚ),
        original_size.length = 2 →
        scale_point point original_size export_size = none)
    ∧ (∀ (point : ℚ × ℚ) (original_size : List ℚ) (export_size : ℚ × ℚ) (r : ℤ × ℤ),
        scale_point point original_size export_size = some r →
        original_size.length = 3)
    ∧ (∀ shape sz : List ℚ, get_cv2_image_size shape = some sz → sz.length = 2)
    ∧ (∀ (label : ℤ) (x1 y1 x2 y2 : ℚ) (shape original_image_size : List ℚ)
          (export_size : ℚ × ℚ),
        get_cv2_image_size shape = some original_image_size →
        export_yolov5_annotation label x1 y1 x2 y2 original_image_size export_size = none)
    ∧ (∀ (env : String → Option (List ℚ)) (image_size : ℚ × ℚ)
          (rows : List AnnotationRow),
        (export_annotations env image_size rows ⟨[], [], []⟩).1.lines = []) := by
  refine ⟨?_, ?_, get_cv2_image_size_length, ?_, ?_⟩
  · intro point original_size export_size h
    exact scale_point_len_two point original_size export_size h
  · intro point original_size export_size r h
    rcases original_size with _ | ⟨a, _ | ⟨b, _ | ⟨c, _ | ⟨d, t⟩⟩⟩⟩
    · exact Option.noConfusion h
    · exact Option.noConfusion h
    · exact Option.noConfusion h
    · rfl
    · exact Option.noConfusion h
  · intro label x1 y1 x2 y2 shape original_image_size export_size hshape
    exact export_yolov5_annotation_len_two label x1 y1 x2 y2 original_image_size
      export_size (get_cv2_image_size_length shape original_image_size hshape)
  · intro env image_size rows
    exact export_annotations_no_lines env image_size rows ⟨[], [], []⟩ (by simp)

/-- Witness for C5: with the three-component cv2 shape `(100, 100, 3)`,
`get_cv2_image_size` yields the pair `[100, 100]`, and the export call on it
fails without writing. -/
theorem C5_scale_point_unpack_witness :
    export_yolov5_annotation 0 10 10 20 20 [100, 100] (50, 50) = none :=
  C5_scale_point_unpack.2.2.2.1 0 10 10 20 20 [100, 100, 3] [100, 100] (50, 50) rfl

theorem lookup_isSome_iff_mem (m : List (String × Nat)) (l : String) :
    (m.lookup l).isSome = true ↔ l ∈ m.map Prod.fst := by
  induction m with
  | nil => simp
  | cons e rest ih =>
    obtain ⟨k, v⟩ := e
    cases hkk : (l == k) with
    | true =>
      have hlk : l = k := eq_of_beq hkk
      subst hlk
      simp [List.lookup]
    | false =>
      have hne : ¬ (l = k) := fun h => by subst h; simp at hkk
      simp [List.lookup, hkk, ih, hne]

theorem lookup_append_left (m m' : List (String × Nat)) (l : String) (i : Nat)
    (h : m.lookup l = some i) : (m ++ m').lookup l = some i := by
  induction m with
  | nil => exact Option.noConfusion h
  | cons e rest ih =>
    obtain ⟨k, v⟩ := e
    rw [List.lookup] at h
    rw [List.cons_append, List.lookup]
    cases hkk : (l == k) with
    | true =>
      rw [hkk] at h
      exact h
    | false =>
      rw [hkk] at h
      exact ih h

theorem labelsMapInsert_lookup_mono (m : List (String × Nat)) (x l : String) (i : Nat)
    (h : m.lookup l = some i) : (labelsMapInsert m x).lookup l = some i := by
  unfold labelsMapInsert
  by_cases hx : (m.lookup x).isSome = true
  · rw [if_pos hx]
    exact h
  · rw [if_neg hx]
    exact lookup_append_left _ _ _ _ h

theorem foldl_labelsMapInsert_lookup_mono (letters : List String) :
    ∀ (m : List (String × Nat)) (l : String) (i : Nat),
      m.lookup l = some i → (letters.foldl labelsMapInsert m).lookup l = some i := by
  induction letters with
  | nil => intro m l i h; exact h
  | cons x rest ih =>
    intro m l i h
    exact ih _ _ _ (labelsMapInsert_lookup_mono m x l i h)

/-- Folding the source's label-map update keeps the keys in first-seen
encounter order and the values equal to `0, 1, 2, …` in that order. -/
theorem foldl_labelsMapInsert_spec (letters : List String) :
    ∀ m : List (String × Nat),
      m.map Prod.snd = List.range m.length →
      (letters.foldl labelsMapInsert m).map Prod.fst
          = letters.foldl (fun seen l => if l ∈ seen then seen else seen ++ [l])
              (m.map Prod.fst)
      ∧ (letters.foldl labelsMapInsert m).map Prod.snd
          = List.range ((letters.foldl labelsMapInsert m).length) := by
  induction letters with
  | nil => intro m hm; exact ⟨rfl, hm⟩
  | cons x rest ih =>
    intro m hm
    rw [List.foldl_cons, List.foldl_cons]
    have hstep_fst : (labelsMapInsert m x).map Prod.fst
        = (if x ∈ m.map Prod.fst then m.map Prod.fst else m.map Prod.fst ++ [x]) := by
      unfold labelsMapInsert
      by_cases hx : (m.lookup x).isSome = true
      · rw [if_pos hx, if_pos ((lookup_isSome_iff_mem m x).mp hx)]
      · rw [if_neg hx, if_neg (fun hmem => hx ((lookup_isSome_iff_mem m x).mpr hmem))]
        simp
    have hstep_snd : (labelsMapInsert m x).map Prod.snd
        = List.range ((labelsMapInsert m x).length) := by
      unfold labelsMapInsert
      by_cases hx : (m.lookup x).isSome = true
      · rw [if_pos hx]
        exact hm
      · rw [if_neg hx]
        simp [hm, List.range_succ]
    obtain ⟨h1, h2⟩ := ih (labelsMapInsert m x) hstep_snd
    refine ⟨?_, h2⟩
    rw [h1, hstep_fst]

/-- Claim C10: the label-to-index map built by the export loops assigns index
`0` to the first distinct label encountered and each subsequent new distinct
label the next consecutive integer in first-seen encounter order (keys in
encounter order, values `0, 1, 2, …`), independent of alphabetic ordering, and
labels already present keep their index when further rows are processed. -/
theorem C10_label_index_map (letters : List String) :
    (buildLabelsMap letters).map Prod.fst = firstSeen letters
    ∧ (buildLabelsMap letters).map Prod.snd
        = List.range ((buildLabelsMap letters).length)
    ∧ (∀ (l : String) (rest : List String), letters = l :: rest →
        (buildLabelsMap letters).lookup l = some 0)
    ∧ (∀ (l : String) (i : Nat) (more : List String),
        (buildLabelsMap letters).lookup l = some i →
        (buildLabelsMap (letters ++ more)).lookup l = some i) := by
  refine ⟨(foldl_labelsMapInsert_spec letters [] rfl).1,
    (foldl_labelsMapInsert_spec letters [] rfl).2, ?_, ?_⟩
  · intro l rest hcase
    subst hcase
    unfold buildLabelsMap
    rw [List.foldl_cons]
    apply foldl_labelsMapInsert_lookup_mono
    simp [labelsMapInsert, List.lookup]
  · intro l i more h
    unfold buildLabelsMap at h ⊢
    rw [List.foldl_append]
    exact foldl_labelsMapInsert_lookup_mono more _ _ _ h

/-- Witness for C10 on the encounter order `"b", "a", "b"` (not alphabetic):
`"b"` gets index `0` and keeps it after more rows are processed. -/
theorem C10_label_index_map_witness :
    (buildLabelsMap (["b", "a", "b"] ++ ["c"])).lookup "b" = some 0 :=
  (C10_label_index_map ["b", "a", "b"]).2.2.2 "b" 0 ["c"] rfl

/-- Counterexample to claim C6 as stated: with the unreadable page `bad.png`
followed by the readable page `good.png`, the batch is not continued — the
`cv2.error` raised for `bad.png` aborts the whole run, and no metadata at all
is produced (not even for `good.png`). -/
theorem C6_unreadable_page_cex :
    fsC6 "bad.png" = none
    ∧ main_cutouts 320 140 160 fsC6 ["bad.png", "good.png"] =
        Except.error cv2_error_message := by
  constructor
  · rfl
  · rfl

/-- Claim C6, amended: a page whose image cannot be read produces no metadata
rows, but it is not skipped: `cv.cvtColor` raises, the error propagates out of
`export_image_cutouts` and `main`, and the remaining pages are not processed. -/
theorem C6_unreadable_page_amended (window_size horizontal_stride vertical_stride : Int)
    (fs : String → Option CvImage) (page : String) (rest : List String)
    (hpage : fs page = none) :
    read_image_grayscale fs page = Except.error cv2_error_message
    ∧ export_image_cutouts window_size horizontal_stride vertical_stride fs page =
        Except.error cv2_error_message
    ∧ main_cutouts window_size horizontal_stride vertical_stride fs (page :: rest) =
        Except.error cv2_error_message := by
  have h1 : read_image_grayscale fs page = Except.error cv2_error_message := by
    unfold read_image_grayscale
    rw [hpage]
  have h2 : export_image_cutouts window_size horizontal_stride vertical_stride fs page =
      Except.error cv2_error_message := by
    unfold export_image_cutouts
    rw [h1]
  refine ⟨h1, h2, ?_⟩
  unfold main_cutouts
  rw [h2]

/-- Witness for the amended C6 on the concrete filesystem `fsC6`. -/
theorem C6_unreadable_page_amended_witness :
    read_image_grayscale fsC6 "bad.png" = Except.error cv2_error_message
    ∧ export_image_cutouts 320 140 160 fsC6 "bad.png" =
        Except.error cv2_error_message
    ∧ main_cutouts 320 140 160 fsC6 ["bad.png", "good.png"] =
        Except.error cv2_error_message :=
  C6_unreadable_page_amended 320 140 160 fsC6 "bad.png" ["good.png"] rfl
